import Mathlib

/-!
Verification development for the car-insurance multidimensional analysis system.

The numeric semantics of the source (JavaScript `number`) is modelled with `ℚ`:
every arithmetic operation appearing in the verified code paths (addition,
multiplication, division with an explicit zero guard, `Math.round`,
`Math.pow(10, d)`) is exact on the inputs the system handles, so rational
arithmetic is a faithful model away from floating-point rounding, which no
claim quantifies over.

`Math.round` in JavaScript rounds half-way cases toward positive infinity,
i.e. `Math.round(x) = ⌊x + 1/2⌋`.
-/

namespace AutoInsur

/-- JavaScript `Math.round`: round half toward positive infinity. -/
def jsRound (q : ℚ) : ℤ := ⌊q + 1/2⌋

/-- `MetricCalculator.roundToDecimal` (metricCalculator, lines 305-308):
`factor = Math.pow(10, decimals); Math.round(value * factor) / factor`. -/
def roundToDecimal (value : ℚ) (decimals : ℕ) : ℚ :=
  (jsRound (value * 10 ^ decimals) : ℚ) / 10 ^ decimals

/-- Value part of `MetricCalculator.safeDivide` (lines 284-297):
a zero (or absent, which `ℚ` excludes) denominator yields 0. -/
def safeDivide (numerator denominator : ℚ) : ℚ :=
  if denominator = 0 then 0 else numerator / denominator

/-- Warning part of `MetricCalculator.safeDivide`: on a zero denominator the
warning message is pushed onto the warning list, but only when the message
string is truthy (non-empty). -/
def divWarn (denominator : ℚ) (msg : String) : List String :=
  if denominator = 0 then (if msg = "" then [] else [msg]) else []

/-- The nine absolute-value numeric fields (`AbsoluteValueFields` in
types/insurance.ts); all are required `number`s there. -/
structure AbsoluteValueFields where
  signed_premium_yuan : ℚ
  matured_premium_yuan : ℚ
  commercial_premium_before_discount_yuan : ℚ
  policy_count : ℚ
  claim_case_count : ℚ
  reported_claim_payment_yuan : ℚ
  expense_amount_yuan : ℚ
  matured_margin_contribution_yuan : ℚ
  variable_cost_amount_yuan : ℚ
deriving DecidableEq

/-- One input observation. Dimension attributes are modelled as an
association list of present string-valued fields (`record[field]` is the
first association, a missing field is `none`; the numeric year/week read
through this dimension interface stand for their decimal rendering, which is
what the template-string grouping keys of the source see). The nine numeric
fields are `Option ℚ`: `none` models a value that is absent or not a number
at runtime, which `MetricCalculator.safeSum` guards against with a
`typeof`/`isNaN` check. -/
structure InsuranceRecord where
  dims : List (String × String)
  signed_premium_yuan : Option ℚ
  matured_premium_yuan : Option ℚ
  commercial_premium_before_discount_yuan : Option ℚ
  policy_count : Option ℚ
  claim_case_count : Option ℚ
  reported_claim_payment_yuan : Option ℚ
  expense_amount_yuan : Option ℚ
  matured_margin_contribution_yuan : Option ℚ
  variable_cost_amount_yuan : Option ℚ
deriving DecidableEq

/-- `record[field]` for a dimension field: first association in the record's
dimension map, `none` when the field is missing/undefined. -/
def dimValue (r : InsuranceRecord) (field : String) : Option String :=
  r.dims.lookup field

/-- A record with every field absent; concrete examples override fields. -/
def emptyRecord : InsuranceRecord :=
  ⟨[], none, none, none, none, none, none, none, none, none⟩

namespace MetricCalculator

/-- `AggregatedData` (metricCalculator, lines 22-39): group dimension values
(the source writes `dimensionValues[field] = groupData[0][field]`, so values
are optional), the nine summed absolute-value fields, and the member count. -/
structure AggregatedData where
  dimensions : List (String × Option String)
  signed_premium_yuan : ℚ
  matured_premium_yuan : ℚ
  commercial_premium_before_discount_yuan : ℚ
  policy_count : ℚ
  claim_case_count : ℚ
  reported_claim_payment_yuan : ℚ
  expense_amount_yuan : ℚ
  matured_margin_contribution_yuan : ℚ
  variable_cost_amount_yuan : ℚ
  record_count : ℕ
deriving DecidableEq

/-- `MetricCalculator.safeSum` (lines 168-173): reduce with `+`, a value that
is not a (non-NaN) number contributes 0; the `typeof value === 'number' &&
!isNaN(value)` guard is the `Option.getD 0`. -/
def safeSum (data : List InsuranceRecord) (field : InsuranceRecord → Option ℚ) : ℚ :=
  data.foldl (fun sum r => sum + (field r).getD 0) 0

/-- `MetricCalculator.aggregateGroup` (lines 139-160). -/
def aggregateGroup (groupData : List InsuranceRecord)
    (dimensionValues : List (String × Option String)) : AggregatedData where
  dimensions := dimensionValues
  record_count := groupData.length
  signed_premium_yuan := safeSum groupData (·.signed_premium_yuan)
  matured_premium_yuan := safeSum groupData (·.matured_premium_yuan)
  commercial_premium_before_discount_yuan :=
    safeSum groupData (·.commercial_premium_before_discount_yuan)
  policy_count := safeSum groupData (·.policy_count)
  claim_case_count := safeSum groupData (·.claim_case_count)
  reported_claim_payment_yuan := safeSum groupData (·.reported_claim_payment_yuan)
  expense_amount_yuan := safeSum groupData (·.expense_amount_yuan)
  matured_margin_contribution_yuan := safeSum groupData (·.matured_margin_contribution_yuan)
  variable_cost_amount_yuan := safeSum groupData (·.variable_cost_amount_yuan)

/-- The per-field fragment of the grouping key (line 107):
`` `${field}:${record[field] || 'null'}` `` — any falsy value (missing,
undefined, or the empty string, for string-valued dimensions) renders as the
literal token `null`. -/
def keyPart (r : InsuranceRecord) (field : String) : String :=
  field ++ ":" ++ (match dimValue r field with
    | none => "null"
    | some s => if s = "" then "null" else s)

/-- The grouping key of a record (lines 106-108): field fragments joined
with `|`. -/
def groupKey (fields : List String) (r : InsuranceRecord) : String :=
  String.intercalate "|" (fields.map (keyPart r))

end MetricCalculator

/-- One step of building the insertion-ordered grouping `Map`: push the
record onto its key's bucket, creating the bucket at the end on first
sight. Shared shape of `MetricCalculator.aggregateByDimensions` (lines
102-114) and `groupByAndCalculate` (calculations, lines 424-437), which
differ only in the key function. -/
def insertGrouped (key : String) (r : InsuranceRecord) :
    List (String × List InsuranceRecord) → List (String × List InsuranceRecord)
  | [] => [(key, [r])]
  | (k, rs) :: rest =>
    if k = key then (k, rs ++ [r]) :: rest else (k, rs) :: insertGrouped key r rest

/-- The grouping `Map` after a `forEach` over the data, as an
insertion-ordered association list. -/
def groupsBy (key : InsuranceRecord → String) (data : List InsuranceRecord) :
    List (String × List InsuranceRecord) :=
  data.foldl (fun gs r => insertGrouped (key r) r gs) []

namespace MetricCalculator

/-- `dimensionValues` extraction (lines 121-124): each grouped field is read
off the first record of the group. -/
def dimensionValuesOf (fields : List String) :
    List InsuranceRecord → List (String × Option String)
  | [] => []
  | r :: _ => fields.map (fun f => (f, dimValue r f))

/-- `MetricCalculator.aggregateByDimensions` (lines 88-131). -/
def aggregateByDimensions (data : List InsuranceRecord) (groupByFields : List String) :
    List AggregatedData :=
  if data = [] then []
  else if groupByFields = [] then [aggregateGroup data []]
  else
    (groupsBy (groupKey groupByFields) data).map
      (fun g => aggregateGroup g.2 (dimensionValuesOf groupByFields g.2))

/-- `MetricCalculationResult` (lines 44-61): the aggregate plus the ten
derived fields, the calculation warnings, the anomaly flags, and the data
quality score. -/
structure MetricCalculationResult extends AggregatedData where
  average_premium_per_policy_yuan : ℚ
  average_claim_payment_yuan : ℚ
  claim_frequency_percent : ℚ
  expired_loss_ratio_percent : ℚ
  expense_ratio_percent : ℚ
  variable_cost_ratio_percent : ℚ
  matured_margin_contribution_rate_percent : ℚ
  commercial_auto_underwriting_factor : ℚ
  combined_ratio_percent : ℚ
  profit_margin_percent : ℚ
  calculation_warnings : List String
  anomaly_flags : List String
  data_quality_score : ℚ
deriving DecidableEq

/-- `detectAnomalies` (lines 315-339) with the `ANOMALY_THRESHOLDS`
configuration (lines 66-75), as the list of flags pushed, applied to the
already-rounded exposed ratios as in the source. Each source message
interpolates the offending value after the label; the model keeps the
label, which is all the flag count and any membership test depend on. -/
def detectAnomalies (vc el er mc : ℚ) : List String :=
  (if vc < 0 ∨ 150 < vc then ["变动成本率异常"] else []) ++
  (if el < 0 ∨ 100 < el then ["满期赔付率异常"] else []) ++
  (if er < 0 ∨ 50 < er then ["费用率异常"] else []) ++
  (if mc < -50 ∨ 100 < mc then ["边际贡献率异常"] else [])

/-- `calculateDataQualityScore` (lines 346-361). -/
def calculateDataQualityScore (warnings flags : ℕ) (sp mp pc : ℚ) : ℚ :=
  let score : ℚ := 100 - 10 * warnings - 15 * flags
  let score := score - (if sp = 0 then 20 else 0)
  let score := score - (if mp = 0 then 15 else 0)
  let score := score - (if pc = 0 then 25 else 0)
  max 0 (min 100 score)

/-- `MetricCalculator.calculateMetrics` (lines 180-274). Each `safeDivide`
call is split into its value (`safeDivide`) and the warning it pushes
(`divWarn`); the warning list is assembled in the source's evaluation order.
The two divisions inside the variable-cost ratio pass the empty string as
message and therefore push nothing. -/
def calculateMetrics (a : AggregatedData) : MetricCalculationResult :=
  let average_premium_per_policy_yuan := safeDivide a.signed_premium_yuan a.policy_count
  let average_claim_payment_yuan := safeDivide a.reported_claim_payment_yuan a.claim_case_count
  let expense_ratio_percent := safeDivide a.expense_amount_yuan a.signed_premium_yuan * 100
  let expired_loss_ratio_percent :=
    safeDivide a.reported_claim_payment_yuan a.matured_premium_yuan * 100
  let claim_frequency_percent :=
    safeDivide a.claim_case_count a.policy_count *
      safeDivide a.matured_premium_yuan a.signed_premium_yuan * 100
  let variable_cost_ratio_percent :=
    (safeDivide a.expense_amount_yuan a.signed_premium_yuan +
      safeDivide a.reported_claim_payment_yuan a.matured_premium_yuan) * 100
  let matured_margin_contribution_rate_percent :=
    safeDivide a.matured_margin_contribution_yuan a.matured_premium_yuan * 100
  let commercial_auto_underwriting_factor :=
    safeDivide a.signed_premium_yuan a.commercial_premium_before_discount_yuan
  let combined_ratio_percent := expense_ratio_percent + expired_loss_ratio_percent
  let profit_margin_percent := 100 - combined_ratio_percent
  let warnings :=
    divWarn a.policy_count "单均保费计算：保单件数为0" ++
    divWarn a.claim_case_count "案均赔款计算：赔案件数为0" ++
    divWarn a.signed_premium_yuan "费用率计算：签单保费为0" ++
    divWarn a.matured_premium_yuan "满期赔付率计算：满期保费为0" ++
    divWarn a.policy_count "满期出险率计算：保单件数为0" ++
    divWarn a.signed_premium_yuan "满期出险率计算：签单保费为0" ++
    divWarn a.signed_premium_yuan "" ++
    divWarn a.matured_premium_yuan "" ++
    divWarn a.matured_premium_yuan "边际贡献率计算：满期保费为0" ++
    divWarn a.commercial_premium_before_discount_yuan "商业险自主系数计算：商业险折前保费为0"
  let r_vc := roundToDecimal variable_cost_ratio_percent 1
  let r_el := roundToDecimal expired_loss_ratio_percent 1
  let r_er := roundToDecimal expense_ratio_percent 1
  let r_mc := roundToDecimal matured_margin_contribution_rate_percent 1
  let flags := detectAnomalies r_vc r_el r_er r_mc
  { a with
    average_premium_per_policy_yuan := (jsRound average_premium_per_policy_yuan : ℚ)
    average_claim_payment_yuan := (jsRound average_claim_payment_yuan : ℚ)
    claim_frequency_percent := roundToDecimal claim_frequency_percent 1
    expired_loss_ratio_percent := r_el
    expense_ratio_percent := r_er
    variable_cost_ratio_percent := r_vc
    matured_margin_contribution_rate_percent := r_mc
    commercial_auto_underwriting_factor := roundToDecimal commercial_auto_underwriting_factor 4
    combined_ratio_percent := roundToDecimal combined_ratio_percent 1
    profit_margin_percent := roundToDecimal profit_margin_percent 1
    calculation_warnings := warnings
    anomaly_flags := flags
    data_quality_score :=
      calculateDataQualityScore warnings.length flags.length
        a.signed_premium_yuan a.matured_premium_yuan a.policy_count }

end MetricCalculator

namespace Calculations

/-- `CalculatedFields` (types/insurance.ts): the ten derived metrics. -/
structure CalculatedFields where
  average_premium_per_policy_yuan : ℚ
  average_claim_payment_yuan : ℚ
  claim_frequency_percent : ℚ
  expired_loss_ratio_percent : ℚ
  expense_ratio_percent : ℚ
  variable_cost_ratio_percent : ℚ
  matured_margin_contribution_rate_percent : ℚ
  commercial_auto_underwriting_factor : ℚ
  combined_ratio_percent : ℚ
  profit_margin_percent : ℚ
deriving DecidableEq

/-- `calculateFields` (calculations, lines 276-341). Note the guards are
`denominator > 0` here, not `= 0`, and no rounding is applied. -/
def calculateFields (record : AbsoluteValueFields) : CalculatedFields :=
  let average_premium_per_policy_yuan :=
    if 0 < record.policy_count then record.signed_premium_yuan / record.policy_count else 0
  let average_claim_payment_yuan :=
    if 0 < record.claim_case_count then
      record.reported_claim_payment_yuan / record.claim_case_count else 0
  let claim_frequency_percent :=
    if 0 < record.policy_count then
      record.claim_case_count / record.policy_count * 100 else 0
  let expired_loss_ratio_percent :=
    if 0 < record.matured_premium_yuan then
      record.reported_claim_payment_yuan / record.matured_premium_yuan * 100 else 0
  let expense_ratio_percent :=
    if 0 < record.signed_premium_yuan then
      record.expense_amount_yuan / record.signed_premium_yuan * 100 else 0
  let variable_cost_ratio_percent :=
    if 0 < record.signed_premium_yuan then
      record.variable_cost_amount_yuan / record.signed_premium_yuan * 100 else 0
  let matured_margin_contribution_rate_percent :=
    if 0 < record.matured_premium_yuan then
      record.matured_margin_contribution_yuan / record.matured_premium_yuan * 100 else 0
  let commercial_auto_underwriting_factor :=
    if 0 < record.commercial_premium_before_discount_yuan then
      record.signed_premium_yuan / record.commercial_premium_before_discount_yuan else 0
  let combined_ratio_percent := expired_loss_ratio_percent + expense_ratio_percent
  let profit_margin_percent := 100 - combined_ratio_percent
  { average_premium_per_policy_yuan, average_claim_payment_yuan,
    claim_frequency_percent, expired_loss_ratio_percent, expense_ratio_percent,
    variable_cost_ratio_percent, matured_margin_contribution_rate_percent,
    commercial_auto_underwriting_factor, combined_ratio_percent,
    profit_margin_percent }

/-- Reading an `InsuranceRecord` at the `AbsoluteValueFields` interface,
as `calculateAnalysisResult` does when passing records to
`aggregateAbsoluteFields`. The TS type declares all nine fields as required
`number`s; this embedding covers the well-typed case and reads a missing
field as 0 (in JS an `undefined` field would poison the sums with `NaN`,
which is outside this model). -/
def toAbsolute (r : InsuranceRecord) : AbsoluteValueFields where
  signed_premium_yuan := r.signed_premium_yuan.getD 0
  matured_premium_yuan := r.matured_premium_yuan.getD 0
  commercial_premium_before_discount_yuan :=
    r.commercial_premium_before_discount_yuan.getD 0
  policy_count := r.policy_count.getD 0
  claim_case_count := r.claim_case_count.getD 0
  reported_claim_payment_yuan := r.reported_claim_payment_yuan.getD 0
  expense_amount_yuan := r.expense_amount_yuan.getD 0
  matured_margin_contribution_yuan := r.matured_margin_contribution_yuan.getD 0
  variable_cost_amount_yuan := r.variable_cost_amount_yuan.getD 0

/-- The all-zero `AbsoluteValueFields`, the reduce seed (and empty-input
result) of `aggregateAbsoluteFields` (lines 348-384). -/
def zeroAbsolute : AbsoluteValueFields := ⟨0, 0, 0, 0, 0, 0, 0, 0, 0⟩

/-- One step of the `aggregateAbsoluteFields` reduce: field-wise addition. -/
def addAbsolute (acc record : AbsoluteValueFields) : AbsoluteValueFields where
  signed_premium_yuan := acc.signed_premium_yuan + record.signed_premium_yuan
  matured_premium_yuan := acc.matured_premium_yuan + record.matured_premium_yuan
  commercial_premium_before_discount_yuan :=
    acc.commercial_premium_before_discount_yuan + record.commercial_premium_before_discount_yuan
  policy_count := acc.policy_count + record.policy_count
  claim_case_count := acc.claim_case_count + record.claim_case_count
  reported_claim_payment_yuan :=
    acc.reported_claim_payment_yuan + record.reported_claim_payment_yuan
  expense_amount_yuan := acc.expense_amount_yuan + record.expense_amount_yuan
  matured_margin_contribution_yuan :=
    acc.matured_margin_contribution_yuan + record.matured_margin_contribution_yuan
  variable_cost_amount_yuan :=
    acc.variable_cost_amount_yuan + record.variable_cost_amount_yuan

/-- `aggregateAbsoluteFields` (calculations, lines 348-384): the empty list
yields the zero record, otherwise a reduce with field-wise `+` from the zero
seed. -/
def aggregateAbsoluteFields (records : List AbsoluteValueFields) : AbsoluteValueFields :=
  records.foldl addAbsolute zeroAbsolute

/-- `AnalysisResult` (types/insurance.ts): the TS object spread
`{...aggregatedAbsolute, ...calculatedFields, dimensions, record_count}` is
modelled with the two field groups nested. -/
structure AnalysisResult where
  absolute : AbsoluteValueFields
  calculated : CalculatedFields
  dimensions : List (String × Option String)
  record_count : ℕ
deriving DecidableEq

/-- `calculateAnalysisResult` (calculations, lines 392-408). -/
def calculateAnalysisResult (records : List InsuranceRecord)
    (dimensions : List (String × Option String) := []) : AnalysisResult :=
  let aggregatedAbsolute := aggregateAbsoluteFields (records.map toAbsolute)
  { absolute := aggregatedAbsolute
    calculated := calculateFields aggregatedAbsolute
    dimensions
    record_count := records.length }

/-- The per-field fragment of this engine's grouping key (line 430):
`String(record[field] ?? 'null')` — only null/undefined map to the token,
the empty string stays itself. -/
def keyPart (r : InsuranceRecord) (field : String) : String :=
  match dimValue r field with
  | none => "null"
  | some s => s

/-- The grouping key of `groupByAndCalculate` (lines 429-431). -/
def groupKey (fields : List String) (r : InsuranceRecord) : String :=
  String.intercalate "|" (fields.map (keyPart r))

/-- Dimension-value reconstruction of `groupByAndCalculate` (lines 440-451):
the key is split on `|` and each piece is paired with its field; the token
`null` becomes a null value. (The numeric/boolean re-coercion branches do
not arise in the string-valued dimension model; a length mismatch from a
`|` inside a value leaves the trailing fields unset, as the out-of-range
index would in JS.) -/
def parseDims (fields : List String) (key : String) : List (String × Option String) :=
  (fields.zip (key.splitOn "|")).map
    (fun p => (p.1, if p.2 = "null" then none else some p.2))

/-- `groupByAndCalculate` (calculations, lines 416-455). -/
def groupByAndCalculate (records : List InsuranceRecord) (groupByFields : List String) :
    List AnalysisResult :=
  if groupByFields = [] then [calculateAnalysisResult records]
  else
    (groupsBy (groupKey groupByFields) records).map
      (fun g => calculateAnalysisResult g.2 (parseDims groupByFields g.1))

end Calculations

/-- A filter condition for one field, the value of one key of
`FilterConditions`: absent/null (no constraint), a single value, or an
array of values. -/
inductive FilterCond where
  | noCond : FilterCond
  | single (v : String) : FilterCond
  | multi (vs : List String) : FilterCond
deriving DecidableEq

namespace DataProcessor

/-- The per-field test of `filterData` (data-processor.ts, lines 186-204):
null/undefined conditions always pass; an array condition passes when it is
empty or contains the record's value; a single condition is strict
equality (a missing record value equals no string). -/
def condMatch (recordValue : Option String) : FilterCond → Bool
  | .noCond => true
  | .single v => recordValue == some v
  | .multi vs =>
    vs.isEmpty || (match recordValue with
      | some v => vs.contains v
      | none => false)

/-- `filterData` (data-processor.ts, lines 186-204): keep the records on
which every provided predicate passes. -/
def filterData (data : List InsuranceRecord) (filters : List (String × FilterCond)) :
    List InsuranceRecord :=
  data.filter (fun r => filters.all (fun fc => condMatch (dimValue r fc.1) fc.2))

end DataProcessor

namespace DataService

/-- The per-field test of `DataService.applyFilters` (dataService, lines
372-387): unlike `filterData`, an empty array condition rejects every
record. -/
def condMatch (recordValue : Option String) : FilterCond → Bool
  | .noCond => true
  | .single v => recordValue == some v
  | .multi vs =>
    match recordValue with
    | some v => vs.contains v
    | none => false

/-- `DataService.applyFilters` (dataService, lines 372-387). -/
def applyFilters (data : List InsuranceRecord) (filters : List (String × FilterCond)) :
    List InsuranceRecord :=
  data.filter (fun r => filters.all (fun fc => condMatch (dimValue r fc.1) fc.2))

end DataService

namespace InsuranceDatabase

/-- Insert into a list kept descending by `record_count`, after any element
with a greater-or-equal count (stability). -/
def insertDesc (a : Calculations.AnalysisResult) :
    List Calculations.AnalysisResult → List Calculations.AnalysisResult
  | [] => [a]
  | b :: rest =>
    if b.record_count < a.record_count then a :: b :: rest else b :: insertDesc a rest

/-- The stable descending sort `results.sort((a, b) => b.record_count -
a.record_count)` of database.ts line 171 (ES Array sort is stable). -/
def sortByRecordCountDesc (l : List Calculations.AnalysisResult) :
    List Calculations.AnalysisResult :=
  l.foldl (fun acc a => insertDesc a acc) []

/-- The data path of `InsuranceDatabase.aggregateByDimensions` (database.ts,
lines 151-176), with the memoization layer peeled off (the cache stores and
returns exactly this value): filter, group-and-calculate, sort by record
count descending, truncate to `limit`. No validation of the dimension names
happens anywhere on this path. -/
def aggregateByDimensions (data : List InsuranceRecord) (dimensions : List String)
    (filters : List (String × FilterCond)) (limit : ℕ) :
    List Calculations.AnalysisResult :=
  let filteredData := DataProcessor.filterData data filters
  let results := Calculations.groupByAndCalculate filteredData dimensions
  (sortByRecordCountDesc results).take limit

/-- One entry of the `InsuranceDatabase`'s private memo map
(`Map<string, { data, timestamp }>`, database.ts line 43). -/
structure DbCacheEntry (V : Type) where
  data : V
  timestamp : ℤ
deriving DecidableEq

/-- The `InsuranceDatabase`'s cache state: the memo map (insertion-ordered)
and the configured `cacheTimeout` (database.ts lines 42-51). -/
structure DbState (V : Type) where
  cache : List (String × DbCacheEntry V)
  cacheTimeout : ℤ
deriving DecidableEq

/-- `getCacheKey` (database.ts, lines 56-58):
`` `${operation}_${JSON.stringify(params)}` `` with the parameter structure
already serialised. -/
def getCacheKey (operation params : String) : String := operation ++ "_" ++ params

/-- `isCacheValid` (lines 63-65): strictly younger than the timeout. -/
def isCacheValid (s : DbState V) (now timestamp : ℤ) : Prop :=
  now - timestamp < s.cacheTimeout

instance (s : DbState V) (now timestamp : ℤ) :
    Decidable (isCacheValid s now timestamp) := by
  unfold isCacheValid
  infer_instance

/-- `Map.get` on the memo map (first occurrence; `Map` keys are unique). -/
def findDbEntry (k : String) : List (String × DbCacheEntry V) → Option (DbCacheEntry V)
  | [] => none
  | (k', e) :: rest => if k' = k then some e else findDbEntry k rest

/-- `Map.set` on the memo map. -/
def dbMapSet (k : String) (e : DbCacheEntry V) :
    List (String × DbCacheEntry V) → List (String × DbCacheEntry V)
  | [] => [(k, e)]
  | (k', e') :: rest => if k' = k then (k, e) :: rest else (k', e') :: dbMapSet k e rest

/-- `setCache` (lines 70-75). -/
def setCache (now : ℤ) (key : String) (data : V) (s : DbState V) : DbState V :=
  { s with cache := dbMapSet key ⟨data, now⟩ s.cache }

/-- `getCache` (lines 80-86): return the data while the entry is young
enough, otherwise `null`. An expired entry is never removed — the method
mutates nothing; the state component of the result makes that explicit. -/
def getCache (now : ℤ) (key : String) (s : DbState V) : Option V × DbState V :=
  match findDbEntry key s.cache with
  | none => (none, s)
  | some e => if isCacheValid s now e.timestamp then (some e.data, s) else (none, s)

/-- `clearCache` (lines 91-93). -/
def clearCache (s : DbState V) : DbState V := { s with cache := [] }

end InsuranceDatabase

namespace MemoryCache

/-- `CacheConfig` (performance module, lines 9-13): `maxSize` bounds the
entry count and, scaled by `1024 * 1024`, the total byte estimate; `ttl` is
in milliseconds. -/
structure CacheConfig where
  maxSize : ℕ
  ttl : ℤ
  enableCompression : Bool
deriving DecidableEq

/-- `CacheEntry` (lines 16-21). The source stores
`compress(data) = JSON.stringify(data)` when compression is enabled and
`get` returns `decompress(entry.data) = JSON.parse(entry.data)`;
stringify/parse are mutually inverse on the JSON-serialisable values this
cache holds, so the entry is modelled as holding the value itself, with the
`compressed` flag recorded. `size` is the source's byte estimate
`JSON.stringify(data).length * 2`, supplied by the `sizeOf` parameter of
`set`. -/
structure CacheEntry (V : Type) where
  data : V
  timestamp : ℤ
  size : ℕ
  compressed : Bool
deriving DecidableEq

/-- The `MemoryCache` state: the entry `Map` as an insertion-ordered
association list (JS `Map` iterates in insertion order and keeps a key's
original position on overwrite), the configuration, and the running
`totalSize` counter. Wall-clock reads (`Date.now()`) are passed in as an
explicit `now` argument to each operation. -/
structure State (V : Type) where
  cache : List (String × CacheEntry V)
  config : CacheConfig
  totalSize : ℤ
deriving DecidableEq

/-- `new MemoryCache(config)`. -/
def empty (V : Type) (config : CacheConfig) : State V := ⟨[], config, 0⟩

/-- `generateKey` (lines 49-51), with the parameter structure already in
its `JSON.stringify` serialisation. -/
def generateKey (p params : String) : String := p ++ ":" ++ params

/-- First-occurrence lookup, i.e. `Map.get` (keys are unique in a `Map`). -/
def findEntry (k : String) : List (String × CacheEntry V) → Option (CacheEntry V)
  | [] => none
  | (k', e) :: rest => if k' = k then some e else findEntry k rest

/-- `Map.set`: overwrite in place when the key is present (keeping its
position), otherwise append at the end. -/
def mapSet (k : String) (e : CacheEntry V) :
    List (String × CacheEntry V) → List (String × CacheEntry V)
  | [] => [(k, e)]
  | (k', e') :: rest =>
    if k' = k then (k, e) :: rest else (k', e') :: mapSet k e rest

/-- `Map.delete`: remove the (unique) occurrence of the key. -/
def mapDelete (k : String) :
    List (String × CacheEntry V) → List (String × CacheEntry V)
  | [] => []
  | (k', e') :: rest =>
    if k' = k then rest else (k', e') :: mapDelete k rest

/-- Whether an entry has expired at time `now` (the test of lines 80 and
140): strictly more than `ttl` milliseconds old. -/
def expired (config : CacheConfig) (now : ℤ) (e : CacheEntry V) : Prop :=
  config.ttl < now - e.timestamp

instance (config : CacheConfig) (now : ℤ) (e : CacheEntry V) :
    Decidable (expired config now e) := by unfold expired; infer_instance

/-- `cleanup` (lines 77-85): drop every expired entry, subtracting its size
from the running total. -/
def cleanup (now : ℤ) (s : State V) : State V :=
  let removed := s.cache.filter (fun p => decide (expired s.config now p.2))
  { s with
    cache := s.cache.filter (fun p => !decide (expired s.config now p.2))
    totalSize := s.totalSize - (removed.map (fun p => (p.2.size : ℤ))).sum }

/-- The `while` loop of `makeSpace` (lines 95-107): while the entry count
reaches `maxSize` or the byte estimate plus the incoming size exceeds
`maxSize` megabytes, evict the oldest entry; an empty map breaks the loop. -/
def evictLoop (maxSize : ℕ) (required : ℤ) :
    List (String × CacheEntry V) → ℤ → List (String × CacheEntry V) × ℤ
  | [], total => ([], total)
  | (k, e) :: rest, total =>
    if maxSize ≤ rest.length + 1 ∨ (maxSize : ℤ) * 1024 * 1024 < total + required then
      evictLoop maxSize required rest (total - (e.size : ℤ))
    else ((k, e) :: rest, total)

/-- `makeSpace` (lines 90-108): purge expired entries first, then evict in
insertion order. -/
def makeSpace (now required : ℤ) (s : State V) : State V :=
  { cleanup now s with
    cache := (evictLoop (cleanup now s).config.maxSize required
      (cleanup now s).cache (cleanup now s).totalSize).1
    totalSize := (evictLoop (cleanup now s).config.maxSize required
      (cleanup now s).cache (cleanup now s).totalSize).2 }

/-- `set` (lines 113-128). `sizeOf` is the source's `calculateSize`, the
`JSON.stringify(data).length * 2` byte estimate. Note the new size is added
to `totalSize` unconditionally, even when the key overwrites an existing
entry. -/
def set (sizeOf : V → ℕ) (now : ℤ) (p params : String) (data : V) (s : State V) :
    State V :=
  { makeSpace now (sizeOf data : ℤ) s with
    cache := mapSet (generateKey p params)
      ⟨data, now, sizeOf data, (makeSpace now (sizeOf data : ℤ) s).config.enableCompression⟩
      (makeSpace now (sizeOf data : ℤ) s).cache
    totalSize := (makeSpace now (sizeOf data : ℤ) s).totalSize + (sizeOf data : ℤ) }

/-- `get` (lines 133-148): a miss leaves the state alone; an expired hit
deletes the entry, subtracts its size and misses; a fresh hit returns the
(decompressed) stored value. -/
def get (now : ℤ) (p params : String) (s : State V) : Option V × State V :=
  match findEntry (generateKey p params) s.cache with
  | none => (none, s)
  | some e =>
    if expired s.config now e then
      (none, { s with cache := mapDelete (generateKey p params) s.cache
                      totalSize := s.totalSize - (e.size : ℤ) })
    else (some e.data, s)

/-- `clear` (lines 153-156). -/
def clear (s : State V) : State V := { s with cache := [], totalSize := 0 }

/-- `getStats` (lines 161-167): `{size, totalSize, hitRate: 0}`; `size` is
the `Map`'s entry count. -/
structure CacheStats where
  size : ℕ
  totalSize : ℤ
  hitRate : ℚ
deriving DecidableEq

/-- `getStats` (lines 161-167). -/
def getStats (s : State V) : CacheStats := ⟨s.cache.length, s.totalSize, 0⟩

/-- A sequence of `set` calls, each tagged with its operation/parameter pair
and value, all performed at time `now`. -/
def runWrites (sizeOf : V → ℕ) (now : ℤ) (s : State V) :
    List ((String × String) × V) → State V
  | [] => s
  | w :: rest => runWrites sizeOf now (set sizeOf now w.1.1 w.1.2 w.2 s) rest

/-- The cache entry that a write `w` performed at time `now` under
configuration `cfg` leaves in the map. -/
def entryOf (sizeOf : V → ℕ) (cfg : CacheConfig) (now : ℤ)
    (w : (String × String) × V) : String × CacheEntry V :=
  (generateKey w.1.1 w.1.2, ⟨w.2, now, sizeOf w.2, cfg.enableCompression⟩)

/-- The bookkeeping invariant the running `totalSize` counter is meant to
maintain: it equals the sum of the recorded size estimates of the entries
currently in the map. -/
def sizeInv (s : State V) : Prop :=
  s.totalSize = (s.cache.map (fun p => (p.2.size : ℤ))).sum

end MemoryCache

/-- The filter semantics asserted by the spec for one field: a record
matches a single-value predicate iff its value equals that value, and a
set-valued predicate iff its value is a member of the provided set; an
absent condition imposes no constraint. -/
def claimMatch (recordValue : Option String) : FilterCond → Prop
  | .noCond => True
  | .single v => recordValue = some v
  | .multi vs => ∃ v, recordValue = some v ∧ v ∈ vs

/-- The `filterData` semantics for one field, which differs from
`claimMatch` only on an empty value set: there it matches every record. -/
def filterDataMatch (recordValue : Option String) : FilterCond → Prop
  | .noCond => True
  | .single v => recordValue = some v
  | .multi vs => vs = [] ∨ ∃ v, recordValue = some v ∧ v ∈ vs

section ExampleData

/-- A fully populated one-record group: signed premium 1000, matured 500,
2 policies, 1 claim case. Its simple-formula claim frequency is 50 while
the composite formula gives 25. -/
def c1Record : InsuranceRecord :=
  { emptyRecord with
    signed_premium_yuan := some 1000
    matured_premium_yuan := some 500
    commercial_premium_before_discount_yuan := some 1200
    policy_count := some 2
    claim_case_count := some 1
    reported_claim_payment_yuan := some 300
    expense_amount_yuan := some 100
    matured_margin_contribution_yuan := some 200
    variable_cost_amount_yuan := some 400 }

/-- An aggregated group with zero signed premium but non-zero matured
premium and reported claims: the variable-cost ratio has a zero denominator
in its first term yet evaluates to 50, with no warning naming it. -/
def c2Group : MetricCalculator.AggregatedData :=
  { dimensions := []
    signed_premium_yuan := 0
    matured_premium_yuan := 1000
    commercial_premium_before_discount_yuan := 1
    policy_count := 1
    claim_case_count := 1
    reported_claim_payment_yuan := 500
    expense_amount_yuan := 0
    matured_margin_contribution_yuan := 0
    variable_cost_amount_yuan := 0
    record_count := 1 }

/-- A record whose `org` dimension is present but empty — a real string
value, yet falsy in JS. -/
def c7rA : InsuranceRecord := { emptyRecord with dims := [("org", "")] }

/-- A record whose `org` dimension is missing. -/
def c7rB : InsuranceRecord := emptyRecord

/-- A record carrying one ordinary dimension value. -/
def c8Record : InsuranceRecord :=
  { emptyRecord with dims := [("chengdu_branch", "成都")] }

/-- A record for the unknown-field façade scenario. -/
def c9Record : InsuranceRecord :=
  { emptyRecord with
    dims := [("chengdu_branch", "成都")]
    policy_count := some 1 }

/-- The source's default cache configuration
(`maxSize: 100, ttl: 5 * 60 * 1000, enableCompression: true`). -/
def defaultCacheConfig : MemoryCache.CacheConfig := ⟨100, 300000, true⟩

/-- A degenerate but expressible configuration with a maximum entry count
of zero. -/
def zeroCacheConfig : MemoryCache.CacheConfig := ⟨0, 300000, true⟩

/-- The source's `calculateSize` byte estimate specialised to string
values: `JSON.stringify` of a string is the string wrapped in quotes, so
its length is the value's length plus 2, doubled. -/
def stringSize : String → ℕ := fun v => 2 * (v.length + 2)

/-- A one-entry cache under the default configuration, holding `"value"`
inserted at time 0 with size estimate 10. -/
def c4State : MemoryCache.State String :=
  ⟨[("op:p", ⟨"value", 0, 10, true⟩)], defaultCacheConfig, 10⟩

/-- A database memo cache holding one entry inserted at time 0, with the
default 5-minute timeout. -/
def c4DbState : InsuranceDatabase.DbState String :=
  ⟨[("findAll_1", ⟨"rows", 0⟩)], 300000⟩

/-- Three distinct-key writes into a capacity-2 cache. -/
def c5Writes : List ((String × String) × String) :=
  [(("findAll", "1"), "a"), (("findAll", "2"), "b"), (("findAll", "3"), "c")]

/-- A capacity-2 configuration. -/
def c5Config : MemoryCache.CacheConfig := ⟨2, 300000, true⟩

/-- The default-config cache after two `set`s on the same key:
`"hello"` (size estimate 14) then `"hi"` (size estimate 8). -/
def c10State : MemoryCache.State String :=
  MemoryCache.set stringSize 0 "op" "p" "hi"
    (MemoryCache.set stringSize 0 "op" "p" "hello"
      (MemoryCache.empty String defaultCacheConfig))

end ExampleData

/-! ### Helper lemmas -/

theorem foldl_add_getD (f : InsuranceRecord → Option ℚ) (data : List InsuranceRecord) :
    ∀ init : ℚ, data.foldl (fun sum r => sum + (f r).getD 0) init =
      init + (data.map (fun r => (f r).getD 0)).sum := by
  induction data with
  | nil => intro init; simp
  | cons r rest ih => intro init; simp [ih, add_assoc]

theorem safeSum_eq_sum (data : List InsuranceRecord) (f : InsuranceRecord → Option ℚ) :
    MetricCalculator.safeSum data f = (data.map (fun r => (f r).getD 0)).sum := by
  unfold MetricCalculator.safeSum
  rw [foldl_add_getD f data 0, zero_add]

/-- Adding two once-rounded values can differ from rounding the sum by at
most one unit in the last (first decimal) place: JS `Math.round` is
`⌊t + 1/2⌋`, and `⌊a + b - 1/2⌋` always lies within 1 of `⌊a⌋ + ⌊b⌋`. -/
theorem roundToDecimal_one_add (x y : ℚ) :
    |roundToDecimal (x + y) 1 - (roundToDecimal x 1 + roundToDecimal y 1)| ≤ 1 / 10 := by
  have hx1 : ((jsRound (x * 10 ^ 1) : ℤ) : ℚ) ≤ x * 10 ^ 1 + 1/2 := Int.floor_le _
  have hx2 : x * 10 ^ 1 + 1/2 < (jsRound (x * 10 ^ 1) : ℚ) + 1 := Int.lt_floor_add_one _
  have hy1 : ((jsRound (y * 10 ^ 1) : ℤ) : ℚ) ≤ y * 10 ^ 1 + 1/2 := Int.floor_le _
  have hy2 : y * 10 ^ 1 + 1/2 < (jsRound (y * 10 ^ 1) : ℚ) + 1 := Int.lt_floor_add_one _
  have hupper : jsRound ((x + y) * 10 ^ 1) ≤ jsRound (x * 10 ^ 1) + jsRound (y * 10 ^ 1) + 1 := by
    have hq : (x + y) * 10 ^ 1 + 1/2 <
        ((jsRound (x * 10 ^ 1) + jsRound (y * 10 ^ 1) + 2 : ℤ) : ℚ) := by
      push_cast
      nlinarith [hx2, hy2]
    have hlt := Int.floor_lt.mpr hq
    unfold jsRound at hlt ⊢
    omega
  have hlower : jsRound (x * 10 ^ 1) + jsRound (y * 10 ^ 1) - 1 ≤ jsRound ((x + y) * 10 ^ 1) := by
    have hq : ((jsRound (x * 10 ^ 1) + jsRound (y * 10 ^ 1) - 1 : ℤ) : ℚ) ≤
        (x + y) * 10 ^ 1 + 1/2 := by
      push_cast
      nlinarith [hx1, hy1]
    exact Int.le_floor.mpr hq
  have hu : ((jsRound ((x + y) * 10 ^ 1) : ℤ) : ℚ) ≤
      (jsRound (x * 10 ^ 1) : ℚ) + (jsRound (y * 10 ^ 1) : ℚ) + 1 := by
    exact_mod_cast hupper
  have hl : (jsRound (x * 10 ^ 1) : ℚ) + (jsRound (y * 10 ^ 1) : ℚ) - 1 ≤
      ((jsRound ((x + y) * 10 ^ 1) : ℤ) : ℚ) := by
    exact_mod_cast hlower
  unfold roundToDecimal
  simp only [pow_one] at hu hl ⊢
  rw [abs_le]
  constructor
  · rw [div_add_div_same, div_sub_div_same, le_div_iff₀ (by norm_num : (0:ℚ) < 10)]
    linarith
  · rw [div_add_div_same, div_sub_div_same, div_le_iff₀ (by norm_num : (0:ℚ) < 10)]
    linarith

/-! ### C1 — composite claim-frequency formula -/

/-- C1 (amended): in the `MetricCalculator` engine the exposed claim
frequency is exactly the composite formula — event ratio times maturity
correction, each factor degrading to 0 on a zero denominator — rounded to 1
decimal; the `calculations`-module engine (`calculateFields`), by contrast,
derives the claim frequency as `claim_case_count / policy_count × 100`
alone, with no maturity correction and no rounding. -/
theorem c1_claim_frequency_formulas (a : MetricCalculator.AggregatedData)
    (b : AbsoluteValueFields) :
    (MetricCalculator.calculateMetrics a).claim_frequency_percent =
      roundToDecimal
        ((if a.policy_count = 0 then 0 else a.claim_case_count / a.policy_count) *
          (if a.signed_premium_yuan = 0 then 0
            else a.matured_premium_yuan / a.signed_premium_yuan) * 100) 1 ∧
    (Calculations.calculateFields b).claim_frequency_percent =
      (if 0 < b.policy_count then b.claim_case_count / b.policy_count * 100 else 0) := by
  exact ⟨rfl, rfl⟩

/-- C1 counterexample: the group aggregated from `c1Record` (signed 1000,
matured 500, 2 policies, 1 claim) gets claim frequency 50 from the
`calculateFields` engine, while the composite formula of the claim gives
`(1/2) × (500/1000) × 100 = 25`; so not every aggregated group's derived
claim frequency equals the composite formula. -/
theorem c1_counterexample :
    (Calculations.calculateAnalysisResult [c1Record] []).calculated.claim_frequency_percent = 50 ∧
    safeDivide (Calculations.calculateAnalysisResult [c1Record] []).absolute.claim_case_count
        (Calculations.calculateAnalysisResult [c1Record] []).absolute.policy_count *
      safeDivide (Calculations.calculateAnalysisResult [c1Record] []).absolute.matured_premium_yuan
        (Calculations.calculateAnalysisResult [c1Record] []).absolute.signed_premium_yuan *
      100 = 25 ∧
    (50 : ℚ) ≠ 25 := by
  refine ⟨?_, ?_, by norm_num⟩
  · simp [Calculations.calculateAnalysisResult, Calculations.aggregateAbsoluteFields,
      Calculations.calculateFields, Calculations.toAbsolute, Calculations.zeroAbsolute,
      Calculations.addAbsolute, c1Record, emptyRecord]
    norm_num
  · simp [Calculations.calculateAnalysisResult, Calculations.aggregateAbsoluteFields,
      Calculations.toAbsolute, Calculations.zeroAbsolute,
      Calculations.addAbsolute, c1Record, emptyRecord, safeDivide]
    norm_num

/-! ### C2 — division-by-zero degradation and warnings -/

/-- C2 (amended): metric derivation is total — every safe division with a
zero denominator contributes 0 to its quotient — and every computation
except the two terms of the variable-cost ratio (which pass an empty
warning message) appends a warning naming the computation; in particular a
group with zero policy count exposes a zero average premium per policy and
carries the warning naming that computation. A field combining several
divisions, such as the variable-cost ratio, is not forced to 0 by a single
zero denominator. -/
theorem c2_zero_denominator_warnings (a : MetricCalculator.AggregatedData)
    (h : a.policy_count = 0) :
    (MetricCalculator.calculateMetrics a).average_premium_per_policy_yuan = 0 ∧
    "单均保费计算：保单件数为0" ∈
      (MetricCalculator.calculateMetrics a).calculation_warnings ∧
    ∀ n : ℚ, safeDivide n 0 = 0 := by
  refine ⟨?_, ?_, fun n => by simp [safeDivide]⟩
  · show ((jsRound (safeDivide a.signed_premium_yuan a.policy_count) : ℤ) : ℚ) = 0
    rw [h]
    simp [safeDivide, jsRound]
    norm_num
  · have hw : (MetricCalculator.calculateMetrics a).calculation_warnings =
        divWarn a.policy_count "单均保费计算：保单件数为0" ++
        divWarn a.claim_case_count "案均赔款计算：赔案件数为0" ++
        divWarn a.signed_premium_yuan "费用率计算：签单保费为0" ++
        divWarn a.matured_premium_yuan "满期赔付率计算：满期保费为0" ++
        divWarn a.policy_count "满期出险率计算：保单件数为0" ++
        divWarn a.signed_premium_yuan "满期出险率计算：签单保费为0" ++
        divWarn a.signed_premium_yuan "" ++
        divWarn a.matured_premium_yuan "" ++
        divWarn a.matured_premium_yuan "边际贡献率计算：满期保费为0" ++
        divWarn a.commercial_premium_before_discount_yuan
          "商业险自主系数计算：商业险折前保费为0" := rfl
    have hone : divWarn a.policy_count "单均保费计算：保单件数为0" =
        ["单均保费计算：保单件数为0"] := by
      rw [h]
      unfold divWarn
      rw [if_pos rfl, if_neg (by decide)]
    rw [hw, hone]
    simp [List.mem_append]

theorem c2_zero_denominator_warnings_witness :
    ({ c2Group with policy_count := 0 } : MetricCalculator.AggregatedData).policy_count = 0 ∧
    (MetricCalculator.calculateMetrics
        { c2Group with policy_count := 0 }).average_premium_per_policy_yuan = 0 ∧
    "单均保费计算：保单件数为0" ∈
      (MetricCalculator.calculateMetrics
        { c2Group with policy_count := 0 }).calculation_warnings := by
  have h := c2_zero_denominator_warnings { c2Group with policy_count := 0 } rfl
  exact ⟨rfl, h.1, h.2.1⟩

/-- C2 counterexample: for `c2Group` (signed premium 0, matured premium
1000, reported claims 500) the variable-cost ratio has a zero denominator
in its expense term, yet the derived field is 50, not 0, and the warning
list names only the expense-ratio and claim-frequency computations — no
warning names the variable-cost-ratio computation, whose `safeDivide` calls
pass an empty message. -/
theorem c2_counterexample :
    c2Group.signed_premium_yuan = 0 ∧
    (MetricCalculator.calculateMetrics c2Group).variable_cost_ratio_percent = 50 ∧
    (MetricCalculator.calculateMetrics c2Group).calculation_warnings =
      ["费用率计算：签单保费为0", "满期出险率计算：签单保费为0"] := by
  refine ⟨rfl, ?_, ?_⟩
  · show roundToDecimal ((safeDivide c2Group.expense_amount_yuan c2Group.signed_premium_yuan +
        safeDivide c2Group.reported_claim_payment_yuan c2Group.matured_premium_yuan) * 100) 1 = 50
    norm_num [c2Group, safeDivide, roundToDecimal, jsRound]
  · decide

/-! ### C3 — round once, late; combined ratio within 0.1 -/

/-- C3: the exposed combined ratio is the rounding of the sum of the
unrounded expense and loss ratios (rounding is applied once, after the
composite formula is evaluated on unrounded intermediates), and it
therefore differs from the sum of the two individually rounded exposed
ratios by at most 0.1. -/
theorem c3_round_once_late (a : MetricCalculator.AggregatedData) :
    (MetricCalculator.calculateMetrics a).combined_ratio_percent =
      roundToDecimal
        (safeDivide a.expense_amount_yuan a.signed_premium_yuan * 100 +
          safeDivide a.reported_claim_payment_yuan a.matured_premium_yuan * 100) 1 ∧
    |(MetricCalculator.calculateMetrics a).combined_ratio_percent -
        ((MetricCalculator.calculateMetrics a).expense_ratio_percent +
          (MetricCalculator.calculateMetrics a).expired_loss_ratio_percent)| ≤ 1 / 10 := by
  refine ⟨rfl, ?_⟩
  have h1 : (MetricCalculator.calculateMetrics a).combined_ratio_percent =
      roundToDecimal
        (safeDivide a.expense_amount_yuan a.signed_premium_yuan * 100 +
          safeDivide a.reported_claim_payment_yuan a.matured_premium_yuan * 100) 1 := rfl
  have h2 : (MetricCalculator.calculateMetrics a).expense_ratio_percent =
      roundToDecimal (safeDivide a.expense_amount_yuan a.signed_premium_yuan * 100) 1 := rfl
  have h3 : (MetricCalculator.calculateMetrics a).expired_loss_ratio_percent =
      roundToDecimal (safeDivide a.reported_claim_payment_yuan a.matured_premium_yuan * 100) 1 :=
    rfl
  rw [h1, h2, h3]
  exact roundToDecimal_one_add _ _

/-! ### C6 — empty dimension list collapses to one global group -/

/-- C6: aggregating a non-empty record list with an empty dimension-field
list yields exactly one group: its dimension-value map is empty, its member
count is the input length, and each of the nine summed absolute-value
fields is the arithmetic sum of that field over the input, a missing value
contributing 0. -/
theorem c6_empty_dimension_list (data : List InsuranceRecord) (h : data ≠ []) :
    MetricCalculator.aggregateByDimensions data [] =
      [{ dimensions := []
         record_count := data.length
         signed_premium_yuan := (data.map (fun r => r.signed_premium_yuan.getD 0)).sum
         matured_premium_yuan := (data.map (fun r => r.matured_premium_yuan.getD 0)).sum
         commercial_premium_before_discount_yuan :=
           (data.map (fun r => r.commercial_premium_before_discount_yuan.getD 0)).sum
         policy_count := (data.map (fun r => r.policy_count.getD 0)).sum
         claim_case_count := (data.map (fun r => r.claim_case_count.getD 0)).sum
         reported_claim_payment_yuan :=
           (data.map (fun r => r.reported_claim_payment_yuan.getD 0)).sum
         expense_amount_yuan := (data.map (fun r => r.expense_amount_yuan.getD 0)).sum
         matured_margin_contribution_yuan :=
           (data.map (fun r => r.matured_margin_contribution_yuan.getD 0)).sum
         variable_cost_amount_yuan :=
           (data.map (fun r => r.variable_cost_amount_yuan.getD 0)).sum }] := by
  unfold MetricCalculator.aggregateByDimensions
  rw [if_neg h, if_pos rfl]
  unfold MetricCalculator.aggregateGroup
  simp only [safeSum_eq_sum]

theorem c6_empty_dimension_list_witness :
    ([c1Record] : List InsuranceRecord) ≠ [] ∧
    MetricCalculator.aggregateByDimensions [c1Record] [] =
      [{ dimensions := []
         record_count := 1
         signed_premium_yuan := 1000
         matured_premium_yuan := 500
         commercial_premium_before_discount_yuan := 1200
         policy_count := 2
         claim_case_count := 1
         reported_claim_payment_yuan := 300
         expense_amount_yuan := 100
         matured_margin_contribution_yuan := 200
         variable_cost_amount_yuan := 400 }] := by
  refine ⟨by simp, ?_⟩
  rw [c6_empty_dimension_list [c1Record] (by simp)]
  simp [c1Record, emptyRecord]

/-! ### C8 — filter semantics -/

/-- C8 (amended): both filter implementations keep exactly the records
satisfying the conjunction of the provided per-field predicates, absent
conditions unconstrained and a single value matched by equality; they
differ on an empty value set, which `filterData` treats as no constraint
(matching every record) while `DataService.applyFilters` matches it by set
membership, i.e. rejects every record. -/
theorem c8_filter_semantics (data : List InsuranceRecord)
    (filters : List (String × FilterCond)) (r : InsuranceRecord) :
    (r ∈ DataProcessor.filterData data filters ↔
      r ∈ data ∧ ∀ fc ∈ filters, filterDataMatch (dimValue r fc.1) fc.2) ∧
    (r ∈ DataService.applyFilters data filters ↔
      r ∈ data ∧ ∀ fc ∈ filters, claimMatch (dimValue r fc.1) fc.2) := by
  constructor
  · rw [DataProcessor.filterData, List.mem_filter, List.all_eq_true]
    refine and_congr_right fun _ => ⟨fun hall fc hfc => ?_, fun hall fc hfc => ?_⟩
    · have := hall fc hfc
      cases hc : fc.2 with
      | noCond => trivial
      | single v =>
        rw [hc] at this
        simp only [DataProcessor.condMatch, beq_iff_eq] at this
        simp [filterDataMatch, this]
      | multi vs =>
        rw [hc] at this
        simp only [DataProcessor.condMatch, Bool.or_eq_true, List.isEmpty_iff] at this
        rcases this with hvs | hm
        · simp [filterDataMatch, hvs]
        · rcases hv : dimValue r fc.1 with _ | v
          · rw [hv] at hm; exact absurd hm (by simp)
          · rw [hv] at hm
            simp only [List.elem_iff] at hm
            exact Or.inr ⟨v, rfl, hm⟩
    · have := hall fc hfc
      cases hc : fc.2 with
      | noCond => simp [DataProcessor.condMatch]
      | single v =>
        rw [hc] at this
        simp only [filterDataMatch] at this
        simp [DataProcessor.condMatch, this]
      | multi vs =>
        rw [hc] at this
        simp only [filterDataMatch] at this
        rcases this with hvs | ⟨v, hv, hmem⟩
        · simp [DataProcessor.condMatch, hvs]
        · simp [DataProcessor.condMatch, hv, List.elem_iff, hmem]
  · rw [DataService.applyFilters, List.mem_filter, List.all_eq_true]
    refine and_congr_right fun _ => ⟨fun hall fc hfc => ?_, fun hall fc hfc => ?_⟩
    · have := hall fc hfc
      cases hc : fc.2 with
      | noCond => trivial
      | single v =>
        rw [hc] at this
        simp only [DataService.condMatch, beq_iff_eq] at this
        simp [claimMatch, this]
      | multi vs =>
        rw [hc] at this
        rcases hv : dimValue r fc.1 with _ | v
        · rw [hv] at this
          exact absurd this (by simp [DataService.condMatch])
        · rw [hv] at this
          simp only [DataService.condMatch, List.elem_iff] at this
          exact ⟨v, rfl, this⟩
    · have := hall fc hfc
      cases hc : fc.2 with
      | noCond => simp [DataService.condMatch]
      | single v =>
        rw [hc] at this
        simp only [claimMatch] at this
        simp [DataService.condMatch, this]
      | multi vs =>
        rw [hc] at this
        rcases this with ⟨v, hv, hmem⟩
        simp [DataService.condMatch, hv, List.elem_iff, hmem]

/-- C8 counterexample: under the filter `{chengdu_branch: []}` (an empty
provided value set) `filterData` keeps a record whose value is a member of
no set at all, while `applyFilters` — implementing the claimed
membership semantics — rejects it; so `filterData` does not return exactly
the records whose value is a member of the provided set. -/
theorem c8_counterexample :
    DataProcessor.filterData [c8Record] [("chengdu_branch", FilterCond.multi [])] =
      [c8Record] ∧
    DataService.applyFilters [c8Record] [("chengdu_branch", FilterCond.multi [])] = [] := by
  decide

/-! ### Cache lemmas -/

theorem findEntry_cons {V : Type} (k k' : String) (e : MemoryCache.CacheEntry V)
    (rest : List (String × MemoryCache.CacheEntry V)) :
    MemoryCache.findEntry k ((k', e) :: rest) =
      if k' = k then some e else MemoryCache.findEntry k rest := rfl

theorem mapDelete_length {V : Type} (k : String)
    (c : List (String × MemoryCache.CacheEntry V)) (e : MemoryCache.CacheEntry V)
    (h : MemoryCache.findEntry k c = some e) :
    (MemoryCache.mapDelete k c).length + 1 = c.length := by
  induction c with
  | nil => simp [MemoryCache.findEntry] at h
  | cons p rest ih =>
    obtain ⟨k', e'⟩ := p
    rw [findEntry_cons] at h
    by_cases hk : k' = k
    · simp [MemoryCache.mapDelete, hk]
    · rw [if_neg hk] at h
      simp only [MemoryCache.mapDelete, if_neg hk, List.length_cons]
      rw [← ih h]

theorem mapDelete_size_sum {V : Type} (k : String)
    (c : List (String × MemoryCache.CacheEntry V)) (e : MemoryCache.CacheEntry V)
    (h : MemoryCache.findEntry k c = some e) :
    ((MemoryCache.mapDelete k c).map (fun q => (q.2.size : ℤ))).sum + (e.size : ℤ) =
      (c.map (fun q => (q.2.size : ℤ))).sum := by
  induction c with
  | nil => simp [MemoryCache.findEntry] at h
  | cons p rest ih =>
    obtain ⟨k', e'⟩ := p
    rw [findEntry_cons] at h
    by_cases hk : k' = k
    · rw [if_pos hk] at h
      obtain rfl : e' = e := by injection h
      simp [MemoryCache.mapDelete, hk]
      ring
    · rw [if_neg hk] at h
      have hrec := ih h
      simp only [MemoryCache.mapDelete, if_neg hk, List.map_cons, List.sum_cons]
      linarith

theorem mapSet_of_absent {V : Type} (k : String) (e : MemoryCache.CacheEntry V)
    (c : List (String × MemoryCache.CacheEntry V))
    (h : MemoryCache.findEntry k c = none) :
    MemoryCache.mapSet k e c = c ++ [(k, e)] := by
  induction c with
  | nil => rfl
  | cons p rest ih =>
    obtain ⟨k', e'⟩ := p
    rw [findEntry_cons] at h
    by_cases hk : k' = k
    · rw [if_pos hk] at h; exact absurd h (by simp)
    · rw [if_neg hk] at h
      simp only [MemoryCache.mapSet, if_neg hk, List.cons_append, List.cons.injEq, true_and]
      exact ih h

theorem sum_filter_split {V : Type} (l : List (String × MemoryCache.CacheEntry V))
    (p : String × MemoryCache.CacheEntry V → Bool) :
    ((l.filter p).map (fun q => (q.2.size : ℤ))).sum +
      ((l.filter (fun x => !p x)).map (fun q => (q.2.size : ℤ))).sum =
      (l.map (fun q => (q.2.size : ℤ))).sum := by
  induction l with
  | nil => simp
  | cons a rest ih =>
    by_cases hp : p a
    · simp only [List.filter_cons, hp, if_pos, Bool.not_true, Bool.false_eq_true,
        if_false, List.map_cons, List.sum_cons]
      rw [add_assoc, ih]
    · simp only [List.filter_cons, hp, Bool.false_eq_true, if_false, Bool.not_false,
        if_true, List.map_cons, List.sum_cons]
      rw [add_left_comm, ih]

theorem cleanup_sizeInv {V : Type} (now : ℤ) (s : MemoryCache.State V)
    (h : MemoryCache.sizeInv s) : MemoryCache.sizeInv (MemoryCache.cleanup now s) := by
  unfold MemoryCache.sizeInv at h ⊢
  unfold MemoryCache.cleanup
  have hsplit := sum_filter_split s.cache
    (fun p => decide (MemoryCache.expired s.config now p.2))
  simp only []
  rw [h]
  linarith [hsplit]

theorem evictLoop_sizeInv {V : Type} (m : ℕ) (req : ℤ)
    (l : List (String × MemoryCache.CacheEntry V)) (t : ℤ)
    (h : t = (l.map (fun q => (q.2.size : ℤ))).sum) :
    (MemoryCache.evictLoop m req l t).2 =
      ((MemoryCache.evictLoop m req l t).1.map (fun q => (q.2.size : ℤ))).sum := by
  induction l generalizing t with
  | nil => simpa [MemoryCache.evictLoop] using h
  | cons a rest ih =>
    obtain ⟨k, e⟩ := a
    rw [MemoryCache.evictLoop]
    by_cases hc : m ≤ rest.length + 1 ∨ (m : ℤ) * 1024 * 1024 < t + req
    · rw [if_pos hc]
      refine ih _ ?_
      rw [h]
      simp only [List.map_cons, List.sum_cons]
      ring
    · rw [if_neg hc]
      exact h

theorem makeSpace_sizeInv {V : Type} (now req : ℤ) (s : MemoryCache.State V)
    (h : MemoryCache.sizeInv s) :
    MemoryCache.sizeInv (MemoryCache.makeSpace now req s) := by
  unfold MemoryCache.makeSpace
  exact evictLoop_sizeInv _ _ _ _ (cleanup_sizeInv now s h)

/-! ### C4 — TTL semantics of `get` -/

/-- C4 (amended): on the `MemoryCache` — the Query Cache implementation —
the claim holds: for every state, key and stored entry, a `get` on an entry
whose age has not exceeded the TTL returns the stored value and leaves the
state untouched, and a `get` on an expired entry returns absent and removes
the entry, so the entry count reported by `getStats` decreases by one. The
claim does not hold of every cache instance in the repository, however: the
`InsuranceDatabase`'s private memo cache never mutates on a read — its
`getCache` merely ignores an expired entry, leaving it in the map. -/
theorem c4_get_ttl {V : Type} (s : MemoryCache.State V) (now : ℤ) (p params : String)
    (e : MemoryCache.CacheEntry V)
    (hfind : MemoryCache.findEntry (MemoryCache.generateKey p params) s.cache = some e) :
    (now - e.timestamp ≤ s.config.ttl →
      MemoryCache.get now p params s = (some e.data, s)) ∧
    (s.config.ttl < now - e.timestamp →
      (MemoryCache.get now p params s).1 = none ∧
      (MemoryCache.getStats (MemoryCache.get now p params s).2).size + 1 =
        (MemoryCache.getStats s).size) ∧
    (∀ (key : String) (db : InsuranceDatabase.DbState V),
      (InsuranceDatabase.getCache now key db).2 = db) := by
  refine ⟨?_, ?_, ?_⟩
  · intro hfresh
    unfold MemoryCache.get
    simp only [hfind]
    rw [if_neg (show ¬ MemoryCache.expired s.config now e from not_lt.mpr hfresh)]
  · intro hexp
    unfold MemoryCache.get
    simp only [hfind]
    rw [if_pos (show MemoryCache.expired s.config now e from hexp)]
    refine ⟨rfl, ?_⟩
    simpa [MemoryCache.getStats] using mapDelete_length _ _ _ hfind
  · intro key db
    unfold InsuranceDatabase.getCache
    rcases h : InsuranceDatabase.findDbEntry key db.cache with _ | de
    · rfl
    · dsimp only
      split <;> rfl

/-- C4 counterexample: on the `InsuranceDatabase` cache — one of the
repository's cache instances, cited by the claim — a `get` of an entry
whose age (999999 ms) exceeds the 5-minute timeout returns absent but does
not remove the entry: the state is returned unchanged and the entry count
stays 1 instead of decreasing. -/
theorem c4_counterexample :
    ¬ InsuranceDatabase.isCacheValid c4DbState 999999 0 ∧
    InsuranceDatabase.getCache 999999 "findAll_1" c4DbState = (none, c4DbState) ∧
    c4DbState.cache.length = 1 := by
  decide

theorem c4_get_ttl_witness :
    MemoryCache.get 1000 "op" "p" c4State = (some "value", c4State) ∧
    (MemoryCache.get 999999 "op" "p" c4State).1 = none ∧
    (MemoryCache.getStats (MemoryCache.get 999999 "op" "p" c4State).2).size + 1 =
      (MemoryCache.getStats c4State).size := by
  refine ⟨?_, ?_⟩
  · exact (c4_get_ttl c4State 1000 "op" "p" ⟨"value", 0, 10, true⟩ (by decide)).1 (by decide)
  · exact (c4_get_ttl c4State 999999 "op" "p" ⟨"value", 0, 10, true⟩ (by decide)).2.1 (by decide)

/-! ### C10 — the `totalSize` bookkeeping invariant -/

/-- C10 (amended): the running `totalSize` counter matches the sum of the
stored size estimates across `clear`, `get`, and any `set` that does not
overwrite a key still present after space reclamation; an overwriting `set`
breaks the invariant because the new size is added without removing the old
entry's contribution (see the counterexample). -/
theorem c10_totalSize_invariant {V : Type} (sizeOf : V → ℕ) (now : ℤ)
    (p params : String) (data : V) (s : MemoryCache.State V)
    (h : MemoryCache.sizeInv s) :
    MemoryCache.sizeInv (MemoryCache.clear s) ∧
    MemoryCache.sizeInv (MemoryCache.get now p params s).2 ∧
    (MemoryCache.findEntry (MemoryCache.generateKey p params)
        (MemoryCache.makeSpace now (sizeOf data) s).cache = none →
      MemoryCache.sizeInv (MemoryCache.set sizeOf now p params data s)) := by
  refine ⟨by simp [MemoryCache.sizeInv, MemoryCache.clear], ?_, ?_⟩
  · unfold MemoryCache.get
    rcases hf : MemoryCache.findEntry (MemoryCache.generateKey p params) s.cache with _ | e
    · exact h
    · dsimp only
      by_cases hexp : MemoryCache.expired s.config now e
      · rw [if_pos hexp]
        unfold MemoryCache.sizeInv at h ⊢
        simp only []
        have := mapDelete_size_sum _ _ _ hf
        rw [h]
        linarith
      · rw [if_neg hexp]
        exact h
  · intro habs
    unfold MemoryCache.set
    have h1 := makeSpace_sizeInv now (sizeOf data) s h
    unfold MemoryCache.sizeInv at h1 ⊢
    simp only []
    rw [mapSet_of_absent _ _ _ habs]
    simp [h1]

theorem c10_totalSize_invariant_witness :
    MemoryCache.sizeInv (MemoryCache.set stringSize 0 "op" "p" "hello"
      (MemoryCache.empty String defaultCacheConfig)) :=
  (c10_totalSize_invariant stringSize 0 "op" "p" "hello"
    (MemoryCache.empty String defaultCacheConfig) rfl).2.2 (by decide)

/-- C10 counterexample: after overwriting key `op:p`, the map holds one
entry of recorded size 8, but `totalSize` reports 22 — the first entry's
14 bytes were never subtracted, so `totalSize` is not the sum of the
present entries' size estimates. -/
theorem c10_counterexample :
    (MemoryCache.getStats c10State).totalSize = 22 ∧
    (c10State.cache.map (fun q => (q.2.size : ℤ))).sum = 8 ∧
    ¬ MemoryCache.sizeInv c10State := by
  refine ⟨by decide, by decide, ?_⟩
  unfold MemoryCache.sizeInv
  decide

/-! ### C5 — eviction order and entry-count bound -/

theorem findEntry_eq_none {V : Type} (k : String)
    (l : List (String × MemoryCache.CacheEntry V)) (h : ∀ q ∈ l, q.1 ≠ k) :
    MemoryCache.findEntry k l = none := by
  induction l with
  | nil => rfl
  | cons q rest ih =>
    obtain ⟨k', e⟩ := q
    rw [findEntry_cons, if_neg (h (k', e) (by simp))]
    exact ih fun q hq => h q (by simp [hq])

theorem cleanup_of_fresh {V : Type} (now : ℤ) (s : MemoryCache.State V)
    (h : ∀ q ∈ s.cache, ¬ MemoryCache.expired s.config now q.2) :
    MemoryCache.cleanup now s = s := by
  unfold MemoryCache.cleanup
  have h1 : s.cache.filter (fun p => decide (MemoryCache.expired s.config now p.2)) = [] := by
    rw [List.filter_eq_nil_iff]
    intro q hq
    simpa using h q hq
  have h2 : s.cache.filter (fun p => !decide (MemoryCache.expired s.config now p.2)) =
      s.cache := by
    rw [List.filter_eq_self]
    intro q hq
    simpa using h q hq
  rw [h1, h2]
  simp

theorem evictLoop_drop {V : Type} (m : ℕ) (req : ℤ)
    (l : List (String × MemoryCache.CacheEntry V)) (t : ℤ) :
    ∃ j, (MemoryCache.evictLoop m req l t).1 = l.drop j := by
  induction l generalizing t with
  | nil => exact ⟨0, rfl⟩
  | cons a rest ih =>
    obtain ⟨k, e⟩ := a
    rw [MemoryCache.evictLoop]
    by_cases hc : m ≤ rest.length + 1 ∨ (m : ℤ) * 1024 * 1024 < t + req
    · rw [if_pos hc]
      obtain ⟨j, hj⟩ := ih (t - (e.size : ℤ))
      exact ⟨j + 1, by simpa using hj⟩
    · rw [if_neg hc]
      exact ⟨0, rfl⟩

theorem evictLoop_length {V : Type} (m : ℕ) (req : ℤ)
    (l : List (String × MemoryCache.CacheEntry V)) (t : ℤ) (hm : 1 ≤ m) :
    (MemoryCache.evictLoop m req l t).1.length < m := by
  induction l generalizing t with
  | nil => simpa [MemoryCache.evictLoop] using hm
  | cons a rest ih =>
    obtain ⟨k, e⟩ := a
    rw [MemoryCache.evictLoop]
    by_cases hc : m ≤ rest.length + 1 ∨ (m : ℤ) * 1024 * 1024 < t + req
    · rw [if_pos hc]
      exact ih _
    · rw [if_neg hc]
      push_neg at hc
      simpa using hc.1

theorem drop_min_length {α : Type _} (l : List α) (a : ℕ) :
    l.drop a = l.drop (min a l.length) := by
  rcases le_total a l.length with h | h
  · rw [min_eq_left h]
  · rw [min_eq_right h, List.drop_eq_nil_of_le h, List.drop_eq_nil_of_le le_rfl]

theorem runWrites_suffix {V : Type} (sizeOf : V → ℕ) (cfg : MemoryCache.CacheConfig)
    (now : ℤ) (hmax : 1 ≤ cfg.maxSize) (httl : 0 ≤ cfg.ttl) :
    ∀ (writes done : List ((String × String) × V)) (s : MemoryCache.State V),
      s.config = cfg →
      ((done ++ writes).map (fun w => MemoryCache.generateKey w.1.1 w.1.2)).Nodup →
      (∃ n, s.cache = (done.drop n).map (MemoryCache.entryOf sizeOf cfg now)) →
      s.cache.length ≤ cfg.maxSize →
      (MemoryCache.runWrites sizeOf now s writes).config = cfg ∧
      (∃ m, (MemoryCache.runWrites sizeOf now s writes).cache =
        ((done ++ writes).drop m).map (MemoryCache.entryOf sizeOf cfg now)) ∧
      (MemoryCache.runWrites sizeOf now s writes).cache.length ≤ cfg.maxSize ∧
      (writes ≠ [] → (MemoryCache.runWrites sizeOf now s writes).cache ≠ []) := by
  intro writes
  induction writes with
  | nil =>
    intro done s hcfg hnodup hsuffix hlen
    simp only [MemoryCache.runWrites, List.append_nil]
    exact ⟨hcfg, hsuffix, hlen, fun h => absurd rfl h⟩
  | cons w rest ih =>
    intro done s hcfg hnodup hsuffix hlen
    obtain ⟨n, hn⟩ := hsuffix
    have hts : ∀ q ∈ s.cache, q.2.timestamp = now := by
      intro q hq
      rw [hn] at hq
      obtain ⟨w', _, rfl⟩ := List.mem_map.mp hq
      rfl
    have hclean : MemoryCache.cleanup now s = s := by
      apply cleanup_of_fresh
      intro q hq
      unfold MemoryCache.expired
      rw [hts q hq, hcfg]
      omega
    have hmsc : (MemoryCache.makeSpace now (sizeOf w.2 : ℤ) s).cache =
        (MemoryCache.evictLoop s.config.maxSize (sizeOf w.2 : ℤ) s.cache s.totalSize).1 := by
      show (MemoryCache.evictLoop (MemoryCache.cleanup now s).config.maxSize (sizeOf w.2 : ℤ)
        (MemoryCache.cleanup now s).cache (MemoryCache.cleanup now s).totalSize).1 = _
      rw [hclean]
    obtain ⟨j, hj⟩ := evictLoop_drop s.config.maxSize (sizeOf w.2 : ℤ) s.cache s.totalSize
    have hmslt : (MemoryCache.makeSpace now (sizeOf w.2 : ℤ) s).cache.length < cfg.maxSize := by
      rw [hmsc]
      rw [hcfg]
      exact evictLoop_length cfg.maxSize (sizeOf w.2 : ℤ) s.cache s.totalSize hmax
    have hmscfg : (MemoryCache.makeSpace now (sizeOf w.2 : ℤ) s).config = cfg := by
      show (MemoryCache.cleanup now s).config = cfg
      rw [hclean, hcfg]
    have hmsdrop : (MemoryCache.makeSpace now (sizeOf w.2 : ℤ) s).cache =
        (done.drop (min (n + j) done.length)).map (MemoryCache.entryOf sizeOf cfg now) := by
      rw [hmsc, hj, hn, ← List.map_drop, List.drop_drop, ← drop_min_length]
    have hkey : MemoryCache.generateKey w.1.1 w.1.2 ∉
        done.map (fun v => MemoryCache.generateKey v.1.1 v.1.2) := by
      rw [List.map_append] at hnodup
      have hdisj := (List.nodup_append.mp hnodup).2.2
      intro hmem
      exact hdisj hmem (by simp)
    have habs : MemoryCache.findEntry (MemoryCache.generateKey w.1.1 w.1.2)
        (MemoryCache.makeSpace now (sizeOf w.2 : ℤ) s).cache = none := by
      apply findEntry_eq_none
      intro q hq heq
      rw [hmsdrop] at hq
      obtain ⟨w', hw', rfl⟩ := List.mem_map.mp hq
      apply hkey
      rw [← heq]
      exact List.mem_map_of_mem _ (List.mem_of_mem_drop hw')
    have hsetc : (MemoryCache.set sizeOf now w.1.1 w.1.2 w.2 s).cache =
        ((done ++ [w]).drop (min (n + j) done.length)).map
          (MemoryCache.entryOf sizeOf cfg now) := by
      show MemoryCache.mapSet (MemoryCache.generateKey w.1.1 w.1.2)
          ⟨w.2, now, sizeOf w.2,
            (MemoryCache.makeSpace now (sizeOf w.2 : ℤ) s).config.enableCompression⟩
          (MemoryCache.makeSpace now (sizeOf w.2 : ℤ) s).cache = _
      rw [mapSet_of_absent _ _ _ habs, hmsdrop, hmscfg,
        List.drop_append_of_le_length (min_le_right _ _), List.map_append]
      rfl
    have hscfg : (MemoryCache.set sizeOf now w.1.1 w.1.2 w.2 s).config = cfg := by
      show (MemoryCache.makeSpace now (sizeOf w.2 : ℤ) s).config = cfg
      exact hmscfg
    have hslen : (MemoryCache.set sizeOf now w.1.1 w.1.2 w.2 s).cache.length ≤
        cfg.maxSize := by
      have : (MemoryCache.set sizeOf now w.1.1 w.1.2 w.2 s).cache =
          MemoryCache.mapSet (MemoryCache.generateKey w.1.1 w.1.2)
            ⟨w.2, now, sizeOf w.2,
              (MemoryCache.makeSpace now (sizeOf w.2 : ℤ) s).config.enableCompression⟩
            (MemoryCache.makeSpace now (sizeOf w.2 : ℤ) s).cache := rfl
      rw [this, mapSet_of_absent _ _ _ habs, List.length_append]
      simpa using hmslt
    have hsetne : (MemoryCache.set sizeOf now w.1.1 w.1.2 w.2 s).cache ≠ [] := by
      rw [hsetc]
      simp only [ne_eq, List.map_eq_nil_iff]
      intro hdrop
      have := congrArg List.length hdrop
      rw [List.length_drop, List.length_append] at this
      simp only [List.length_nil, List.length_singleton] at this
      omega
    have happ : (done ++ [w]) ++ rest = done ++ w :: rest := by simp
    have hih := ih (done ++ [w]) (MemoryCache.set sizeOf now w.1.1 w.1.2 w.2 s)
      hscfg (by rwa [happ]) ⟨min (n + j) done.length, hsetc⟩ hslen
    rw [happ] at hih
    refine ⟨?_, ?_, ?_, fun _ => ?_⟩
    · simpa only [MemoryCache.runWrites] using hih.1
    · simpa only [MemoryCache.runWrites] using hih.2.1
    · simpa only [MemoryCache.runWrites] using hih.2.2.1
    · rcases hrest : rest with _ | ⟨r1, rest1⟩
      · show (MemoryCache.runWrites sizeOf now
          (MemoryCache.set sizeOf now w.1.1 w.1.2 w.2 s) []).cache ≠ []
        simpa only [MemoryCache.runWrites] using hsetne
      · rw [← hrest]
        have := hih.2.2.2 (by rw [hrest]; simp)
        simpa only [MemoryCache.runWrites] using this

/-- C5 (amended): `makeSpace` purges expired entries first and then evicts
in insertion order until the bounds hold or the cache is empty; for every
configuration with a positive maximum entry count and every sequence of
distinct-key writes with no TTL expiry in between (all performed at one
instant, with a non-negative TTL), the entry count after the sequence never
exceeds the configured maximum and the surviving entries are exactly the
most recently inserted writes, in insertion order. With a configured
maximum of zero the entry-count bound fails (see the counterexample),
since a write always inserts after eviction empties the map. -/
theorem c5_bounded_eviction {V : Type} (sizeOf : V → ℕ) (cfg : MemoryCache.CacheConfig)
    (now : ℤ) (writes : List ((String × String) × V))
    (hmax : 1 ≤ cfg.maxSize) (httl : 0 ≤ cfg.ttl)
    (hnodup : (writes.map (fun w => MemoryCache.generateKey w.1.1 w.1.2)).Nodup) :
    (MemoryCache.getStats
      (MemoryCache.runWrites sizeOf now (MemoryCache.empty V cfg) writes)).size ≤
      cfg.maxSize ∧
    (writes ≠ [] →
      (MemoryCache.runWrites sizeOf now (MemoryCache.empty V cfg) writes).cache ≠ []) ∧
    ∃ m, (MemoryCache.runWrites sizeOf now (MemoryCache.empty V cfg) writes).cache =
      (writes.drop m).map (MemoryCache.entryOf sizeOf cfg now) := by
  have h := runWrites_suffix sizeOf cfg now hmax httl writes [] (MemoryCache.empty V cfg)
    rfl (by simpa using hnodup) ⟨0, rfl⟩ (Nat.zero_le _)
  exact ⟨h.2.2.1, h.2.2.2, by simpa using h.2.1⟩

theorem c5_bounded_eviction_witness :
    (MemoryCache.getStats
      (MemoryCache.runWrites stringSize 0 (MemoryCache.empty String c5Config) c5Writes)).size ≤
      c5Config.maxSize ∧
    (c5Writes ≠ [] →
      (MemoryCache.runWrites stringSize 0 (MemoryCache.empty String c5Config) c5Writes).cache ≠
        []) ∧
    ∃ m, (MemoryCache.runWrites stringSize 0 (MemoryCache.empty String c5Config) c5Writes).cache =
      (c5Writes.drop m).map (MemoryCache.entryOf stringSize c5Config 0) :=
  c5_bounded_eviction stringSize c5Config 0 c5Writes (by decide) (by decide) (by decide)

/-- C5 counterexample: with a configured maximum entry count of 0, a single
write still leaves one entry in the cache — the eviction loop stops on an
empty map and `set` inserts unconditionally — so "after any write the entry
count never exceeds the configured maximum" fails as stated for every
configuration. -/
theorem c5_counterexample :
    zeroCacheConfig.maxSize = 0 ∧
    (MemoryCache.getStats
      (MemoryCache.runWrites stringSize 0 (MemoryCache.empty String zeroCacheConfig)
        [(("findAll", "1"), "a")])).size = 1 := by
  decide

/-! ### Grouping lemmas -/

theorem insertGrouped_totalLen (k : String) (r : InsuranceRecord)
    (gs : List (String × List InsuranceRecord)) :
    ((insertGrouped k r gs).map (fun g => g.2.length)).sum =
      (gs.map (fun g => g.2.length)).sum + 1 := by
  induction gs with
  | nil => simp [insertGrouped]
  | cons g rest ih =>
    obtain ⟨k', rs⟩ := g
    by_cases hk : k' = k
    · simp only [insertGrouped, if_pos hk, List.map_cons, List.sum_cons,
        List.length_append, List.length_singleton]
      omega
    · simp only [insertGrouped, if_neg hk, List.map_cons, List.sum_cons, ih]
      omega

theorem groupsBy_foldl_totalLen (key : InsuranceRecord → String)
    (data : List InsuranceRecord) :
    ∀ acc : List (String × List InsuranceRecord),
      ((data.foldl (fun gs r => insertGrouped (key r) r gs) acc).map
        (fun g => g.2.length)).sum = (acc.map (fun g => g.2.length)).sum + data.length := by
  induction data with
  | nil => intro acc; simp
  | cons r rest ih =>
    intro acc
    simp only [List.foldl_cons, List.length_cons, ih, insertGrouped_totalLen]
    omega

theorem groupsBy_totalLen (key : InsuranceRecord → String) (data : List InsuranceRecord) :
    ((groupsBy key data).map (fun g => g.2.length)).sum = data.length := by
  unfold groupsBy
  rw [groupsBy_foldl_totalLen]
  simp

theorem insertGrouped_sound (key : InsuranceRecord → String) (r : InsuranceRecord)
    (gs : List (String × List InsuranceRecord))
    (hs : ∀ g ∈ gs, ∀ x ∈ g.2, key x = g.1) :
    ∀ g ∈ insertGrouped (key r) r gs, ∀ x ∈ g.2, key x = g.1 := by
  induction gs with
  | nil =>
    intro g hg x hx
    simp only [insertGrouped, List.mem_singleton] at hg
    subst hg
    simp only [List.mem_singleton] at hx
    subst hx
    rfl
  | cons g0 rest ih =>
    obtain ⟨k', rs⟩ := g0
    intro g hg x hx
    by_cases hk : k' = key r
    · simp only [insertGrouped, if_pos hk, List.mem_cons] at hg
      rcases hg with rfl | hg
      · simp only [List.mem_append, List.mem_singleton] at hx
        rcases hx with hx | rfl
        · exact hs (k', rs) (by simp) x hx
        · exact hk.symm
      · exact hs g (by simp [hg]) x hx
    · simp only [insertGrouped, if_neg hk, List.mem_cons] at hg
      rcases hg with rfl | hg
      · exact hs (k', rs) (by simp) x hx
      · exact ih (fun g' hg' => hs g' (by simp [hg'])) g hg x hx

theorem insertGrouped_keys (k : String) (r : InsuranceRecord)
    (gs : List (String × List InsuranceRecord)) :
    (insertGrouped k r gs).map Prod.fst =
      if k ∈ gs.map Prod.fst then gs.map Prod.fst else gs.map Prod.fst ++ [k] := by
  induction gs with
  | nil => simp [insertGrouped]
  | cons g0 rest ih =>
    obtain ⟨k', rs⟩ := g0
    by_cases hk : k' = k
    · simp [insertGrouped, hk]
    · simp only [insertGrouped, if_neg hk, List.map_cons, ih, List.mem_cons]
      by_cases hmem : k ∈ rest.map Prod.fst
      · rw [if_pos hmem, if_pos (Or.inr hmem)]
      · rw [if_neg hmem, if_neg (by rintro (h | h); exact hk h.symm; exact hmem h)]
        simp

theorem insertGrouped_nodupKeys (k : String) (r : InsuranceRecord)
    (gs : List (String × List InsuranceRecord)) (h : (gs.map Prod.fst).Nodup) :
    ((insertGrouped k r gs).map Prod.fst).Nodup := by
  rw [insertGrouped_keys]
  by_cases hmem : k ∈ gs.map Prod.fst
  · rwa [if_pos hmem]
  · rw [if_neg hmem]
    simp [List.nodup_append, h, hmem]

theorem insertGrouped_covers_new (k : String) (r : InsuranceRecord)
    (gs : List (String × List InsuranceRecord)) :
    ∃ rs, (k, rs) ∈ insertGrouped k r gs ∧ r ∈ rs := by
  induction gs with
  | nil => exact ⟨[r], by simp [insertGrouped], by simp⟩
  | cons g0 rest ih =>
    obtain ⟨k', rs'⟩ := g0
    by_cases hk : k' = k
    · subst hk
      exact ⟨rs' ++ [r], by simp [insertGrouped], by simp⟩
    · obtain ⟨rs, hmem, hr⟩ := ih
      exact ⟨rs, by simp [insertGrouped, hk, hmem], hr⟩

theorem insertGrouped_covers_old (k0 : String) (r0 : InsuranceRecord) (k : String)
    (r : InsuranceRecord) (gs : List (String × List InsuranceRecord))
    (h : ∃ rs, (k0, rs) ∈ gs ∧ r0 ∈ rs) :
    ∃ rs, (k0, rs) ∈ insertGrouped k r gs ∧ r0 ∈ rs := by
  induction gs with
  | nil => simp at h
  | cons g0 rest ih =>
    obtain ⟨k', rs'⟩ := g0
    obtain ⟨rs, hmem, hr⟩ := h
    rw [List.mem_cons, Prod.mk.injEq] at hmem
    by_cases hk : k' = k
    · rcases hmem with ⟨heq1, heq2⟩ | hmem
      · subst heq1
        subst heq2
        refine ⟨rs ++ [r], ?_, List.mem_append_left _ hr⟩
        simp only [insertGrouped, if_pos hk]
        exact List.mem_cons_self _ _
      · refine ⟨rs, ?_, hr⟩
        simp only [insertGrouped, if_pos hk, List.mem_cons]
        exact Or.inr hmem
    · rcases hmem with ⟨heq1, heq2⟩ | hmem
      · subst heq1
        subst heq2
        refine ⟨rs, ?_, hr⟩
        simp only [insertGrouped, if_neg hk]
        exact List.mem_cons_self _ _
      · obtain ⟨rs2, hmem2, hr2⟩ := ih ⟨rs, hmem, hr⟩
        refine ⟨rs2, ?_, hr2⟩
        simp only [insertGrouped, if_neg hk, List.mem_cons]
        exact Or.inr hmem2

theorem foldl_preserves_covers (key : InsuranceRecord → String)
    (data : List InsuranceRecord) :
    ∀ (acc : List (String × List InsuranceRecord)) (k0 : String) (r0 : InsuranceRecord),
      (∃ rs, (k0, rs) ∈ acc ∧ r0 ∈ rs) →
      ∃ rs, (k0, rs) ∈ data.foldl (fun gs x => insertGrouped (key x) x gs) acc ∧ r0 ∈ rs := by
  induction data with
  | nil => intro acc k0 r0 h; simpa using h
  | cons r rest ih =>
    intro acc k0 r0 h
    exact ih _ k0 r0 (insertGrouped_covers_old k0 r0 (key r) r acc h)

theorem groupsBy_foldl_covers (key : InsuranceRecord → String)
    (data : List InsuranceRecord) :
    ∀ (acc : List (String × List InsuranceRecord)) (r : InsuranceRecord), r ∈ data →
      ∃ rs, (key r, rs) ∈ data.foldl (fun gs x => insertGrouped (key x) x gs) acc ∧
        r ∈ rs := by
  induction data with
  | nil => intro acc r h; simp at h
  | cons d rest ih =>
    intro acc r h
    rw [List.mem_cons] at h
    rcases h with rfl | h
    · exact foldl_preserves_covers key rest _ _ _ (insertGrouped_covers_new (key r) r acc)
    · exact ih _ r h

theorem groupsBy_foldl_sound (key : InsuranceRecord → String)
    (data : List InsuranceRecord) :
    ∀ acc : List (String × List InsuranceRecord),
      (∀ g ∈ acc, ∀ x ∈ g.2, key x = g.1) →
      ∀ g ∈ data.foldl (fun gs x => insertGrouped (key x) x gs) acc, ∀ x ∈ g.2,
        key x = g.1 := by
  induction data with
  | nil => intro acc hs; exact hs
  | cons d rest ih =>
    intro acc hs
    exact ih _ (insertGrouped_sound key d acc hs)

theorem groupsBy_foldl_nodupKeys (key : InsuranceRecord → String)
    (data : List InsuranceRecord) :
    ∀ acc : List (String × List InsuranceRecord), (acc.map Prod.fst).Nodup →
      ((data.foldl (fun gs x => insertGrouped (key x) x gs) acc).map Prod.fst).Nodup := by
  induction data with
  | nil => intro acc h; exact h
  | cons d rest ih =>
    intro acc h
    exact ih _ (insertGrouped_nodupKeys (key d) d acc h)

theorem keyPart_congr (r s : InsuranceRecord) (f : String)
    (h : dimValue r f = dimValue s f) :
    MetricCalculator.keyPart r f = MetricCalculator.keyPart s f := by
  unfold MetricCalculator.keyPart
  rw [h]

/-! ### C7 — grouping-key canonicalization -/

/-- C7 (amended): every record lands in the bucket of its canonical key,
every bucket member has the bucket's key, bucket keys are pairwise
distinct — so two records share a group exactly when their canonical keys
coincide — and equal projected dimension tuples always give equal keys; the
per-position guarantee of the claim also holds: a record with dimension A
missing and B = "x" never shares a group with one with A = "x" and B
missing, because each key fragment is prefixed with its field name. The
canonical key is, however, not injective on distinct tuples: any falsy
value (a missing field, but also the empty string, or the literal string
"null") collapses to the token `null` (see the counterexample). -/
theorem c7_grouping_canonicalization (data : List InsuranceRecord) (fields : List String) :
    (∀ r ∈ data, ∃ rs, (MetricCalculator.groupKey fields r, rs) ∈
        groupsBy (MetricCalculator.groupKey fields) data ∧ r ∈ rs) ∧
    (∀ g ∈ groupsBy (MetricCalculator.groupKey fields) data, ∀ x ∈ g.2,
        MetricCalculator.groupKey fields x = g.1) ∧
    ((groupsBy (MetricCalculator.groupKey fields) data).map Prod.fst).Nodup ∧
    (∀ r s : InsuranceRecord,
        fields.map (fun f => dimValue r f) = fields.map (fun f => dimValue s f) →
        MetricCalculator.groupKey fields r = MetricCalculator.groupKey fields s) ∧
    (∀ r s : InsuranceRecord, dimValue r "A" = none → dimValue r "B" = some "x" →
        dimValue s "A" = some "x" → dimValue s "B" = none →
        MetricCalculator.groupKey ["A", "B"] r ≠ MetricCalculator.groupKey ["A", "B"] s) := by
  refine ⟨?_, ?_, ?_, ?_, ?_⟩
  · intro r hr
    exact groupsBy_foldl_covers _ data [] r hr
  · exact groupsBy_foldl_sound _ data [] (by simp)
  · exact groupsBy_foldl_nodupKeys _ data [] (by simp)
  · intro r s h
    unfold MetricCalculator.groupKey
    congr 1
    induction fields with
    | nil => rfl
    | cons f rest ih =>
      simp only [List.map_cons, List.cons.injEq] at h ⊢
      exact ⟨keyPart_congr r s f h.1, ih h.2⟩
  · intro r s h1 h2 h3 h4
    have e1 : MetricCalculator.keyPart r "A" = "A:null" := by
      unfold MetricCalculator.keyPart
      rw [h1]
      decide
    have e2 : MetricCalculator.keyPart r "B" = "B:x" := by
      unfold MetricCalculator.keyPart
      rw [h2]
      decide
    have e3 : MetricCalculator.keyPart s "A" = "A:x" := by
      unfold MetricCalculator.keyPart
      rw [h3]
      decide
    have e4 : MetricCalculator.keyPart s "B" = "B:null" := by
      unfold MetricCalculator.keyPart
      rw [h4]
      decide
    unfold MetricCalculator.groupKey
    simp only [List.map_cons, List.map_nil, e1, e2, e3, e4]
    decide

theorem c7_grouping_canonicalization_witness :
    MetricCalculator.groupKey ["A", "B"]
        { emptyRecord with dims := [("B", "x")] } ≠
      MetricCalculator.groupKey ["A", "B"]
        { emptyRecord with dims := [("A", "x")] } :=
  (c7_grouping_canonicalization [] []).2.2.2.2
    { emptyRecord with dims := [("B", "x")] }
    { emptyRecord with dims := [("A", "x")] }
    rfl rfl rfl rfl

/-- C7 counterexample: a record whose `org` value is the empty string — a
real string value, distinct from any reserved token — receives the same
canonical key as a record with `org` missing (the source tests falsiness,
`record[field] || 'null'`), so the two records land in one group of size 2
although their projected dimension tuples differ. -/
theorem c7_counterexample :
    dimValue c7rA "org" = some "" ∧
    dimValue c7rB "org" = none ∧
    MetricCalculator.groupKey ["org"] c7rA = MetricCalculator.groupKey ["org"] c7rB ∧
    (MetricCalculator.aggregateByDimensions [c7rA, c7rB] ["org"]).length = 1 ∧
    ∀ g ∈ MetricCalculator.aggregateByDimensions [c7rA, c7rB] ["org"],
      g.record_count = 2 := by
  decide

/-! ### C9 — unknown dimension fields are silently accepted -/

/-- C9 (amended): the aggregation path performs no validation of dimension
field names: for every record list and every dimension list — including
names that are not recognized record fields, which simply project to the
missing-value token — the operation completes normally and partitions the
input, the group member counts summing to the input length; no failure
response exists on this path. -/
theorem c9_no_unknown_field_rejection (data : List InsuranceRecord)
    (dimensions : List String) :
    ((Calculations.groupByAndCalculate data dimensions).map
      (fun a => a.record_count)).sum = data.length := by
  unfold Calculations.groupByAndCalculate
  by_cases h : dimensions = []
  · rw [if_pos h]
    simp [Calculations.calculateAnalysisResult]
  · rw [if_neg h]
    rw [List.map_map]
    have hcomp : ((fun a => Calculations.AnalysisResult.record_count a) ∘
        fun g => Calculations.calculateAnalysisResult g.2
          (Calculations.parseDims dimensions g.1)) =
        fun g : String × List InsuranceRecord => g.2.length := rfl
    rw [hcomp]
    exact groupsBy_totalLen _ data

/-- C9 counterexample: a façade aggregation request naming the unknown
field `no_such_field` is not rejected: it completes with a normal result —
one group holding both records (each record's missing `no_such_field`
projecting to the `null` token, so both share the key `null`). -/
theorem c9_counterexample :
    Calculations.groupKey ["no_such_field"] c9Record = "null" ∧
    (InsuranceDatabase.aggregateByDimensions [c9Record, c9Record]
      ["no_such_field"] [] 1000).length = 1 ∧
    ∀ a ∈ InsuranceDatabase.aggregateByDimensions [c9Record, c9Record]
        ["no_such_field"] [] 1000,
      a.record_count = 2 := by
  decide

end AutoInsur
